import Mathlib

set_option linter.unusedVariables false

/-! Embedding of src/nbconflux/plotly_preprocessor.py -/

/-- Python values produced by the literal parser (the fragment of
`ast.literal_eval` exercised by chart specs: None, booleans, decimal
integers, strings, lists and dicts). -/
inductive PyVal : Type where
  | none : PyVal
  | bool : Bool → PyVal
  | int : Int → PyVal
  | str : String → PyVal
  | list : List PyVal → PyVal
  | dict : List (PyVal × PyVal) → PyVal

/-- Python `==` on hashable scalar keys (dict keys): `True == 1`,
`False == 0`; strings equal only strings. -/
def keyEq : PyVal → PyVal → Bool
  | PyVal.none, PyVal.none => true
  | PyVal.bool x, PyVal.bool y => x = y
  | PyVal.bool x, PyVal.int n => (x && n = 1) || (!x && n = 0)
  | PyVal.int n, PyVal.bool x => (x && n = 1) || (!x && n = 0)
  | PyVal.int m, PyVal.int n => m = n
  | PyVal.str s, PyVal.str t => s = t
  | _, _ => false

/-- Python dict assignment `d[k] = v`: update in place (keeping the original
key object and position) when the key is present, else append. -/
def dictInsert : List (PyVal × PyVal) → PyVal → PyVal → List (PyVal × PyVal)
  | [], k, v => [(k, v)]
  | (k', v') :: rest, k, v =>
    if keyEq k' k then (k', v) :: rest else (k', v') :: dictInsert rest k v

/-- Python `d.get(s)` for a string key `s`. -/
def lookupStr : List (PyVal × PyVal) → String → Option PyVal
  | [], _ => Option.none
  | (k, v) :: rest, s => if keyEq k (PyVal.str s) then some v else lookupStr rest s

-- characters written via code points to keep quoting uniform
def sqChar : Char := Char.ofNat 39
def dqChar : Char := Char.ofNat 34
def bsChar : Char := Char.ofNat 92
def nlChar : Char := Char.ofNat 10
def crChar : Char := Char.ofNat 13
def obChar : Char := Char.ofNat 123
def cbChar : Char := Char.ofNat 125

/-- Python `\s` on ASCII: space, tab, newline, carriage return, vertical tab,
form feed. -/
def isSpaceChar (c : Char) : Bool :=
  c = ' ' || c = Char.ofNat 9 || c = nlChar || c = Char.ofNat 13 ||
  c = Char.ofNat 11 || c = Char.ofNat 12

/-- Greedy `\s*` (deterministic here: every token following `\s*` in the
pattern is a non-space character). -/
def dropWs : List Char → List Char
  | [] => []
  | c :: cs => if isSpaceChar c then dropWs cs else c :: cs

/-- Match a literal at the head of the input, returning the rest. -/
def stripLit : List Char → List Char → Option (List Char)
  | [], s => some s
  | _ :: _, [] => Option.none
  | c :: cs, d :: ds => if c = d then stripLit cs ds else Option.none

/-- Non-greedy `[\s\S]*?` followed by `close`, with full backtracking:
the shortest body whose continuation `k` succeeds wins; the body may itself
contain `close` characters if shorter attempts fail. -/
def lazyScan {α : Type} (close : Char) (k : List Char → List Char → Option α) :
    List Char → List Char → Option α
  | _, [] => Option.none
  | acc, c :: rest =>
    if c = close then
      match k acc.reverse rest with
      | some v => some v
      | Option.none => lazyScan close k (c :: acc) rest
    else lazyScan close k (c :: acc) rest

/-- `[^q]+` up to the closing quote `q`; returns (content, rest). -/
def scanTo (q : Char) : List Char → Option (List Char × List Char)
  | [] => Option.none
  | c :: cs =>
    if c = q then some ([], cs)
    else
      match scanTo q cs with
      | some (b, r) => some (c :: b, r)
      | Option.none => Option.none

/-- The id group `'[^']+'|"[^"]+"` (quotes included in the capture). -/
def scanId : List Char → Option (List Char × List Char)
  | [] => Option.none
  | c :: cs =>
    if c = sqChar then
      match scanTo sqChar cs with
      | some ([], _) => Option.none
      | some (b, r) => some (sqChar :: b ++ [sqChar], r)
      | Option.none => Option.none
    else if c = dqChar then
      match scanTo dqChar cs with
      | some ([], _) => Option.none
      | some (b, r) => some (dqChar :: b ++ [dqChar], r)
      | Option.none => Option.none
    else Option.none

/-- The captures of `NEWPLOT_PATTERN` (groups include their delimiters,
as the regex groups do). -/
structure NPMatch : Type where
  idGroup : List Char
  dataGroup : List Char
  layoutGroup : List Char
  configGroup : Option (List Char)
deriving Repr

def npLit : List Char := "Plotly.newPlot".toList

/-- Optional trailing `(?:\s*,\s*(?P<config>\{[\s\S]*?\}))?` followed by
`\s*\)`, config branch tried first (the `?` is greedy). -/
def tryConfig (idG dataG layoutG : List Char) (s : List Char) : Option NPMatch :=
  match stripLit [','] (dropWs s) with
  | some s1 =>
    match stripLit [obChar] (dropWs s1) with
    | some s2 =>
      lazyScan cbChar
        (fun body rest =>
          match stripLit [')'] (dropWs rest) with
          | some _ => some ⟨idG, dataG, layoutG, some (obChar :: body ++ [cbChar])⟩
          | Option.none => Option.none)
        [] s2
    | Option.none => Option.none
  | Option.none => Option.none

def afterLayout (idG dataG layoutG : List Char) (s : List Char) : Option NPMatch :=
  match tryConfig idG dataG layoutG s with
  | some m => some m
  | Option.none =>
    match stripLit [')'] (dropWs s) with
    | some _ => some ⟨idG, dataG, layoutG, Option.none⟩
    | Option.none => Option.none

/-- After the data group: `\s*,\s*(?P<layout>\{[\s\S]*?\})` and the rest. -/
def afterData (idG dataG : List Char) (s : List Char) : Option NPMatch :=
  match stripLit [','] (dropWs s) with
  | some s1 =>
    match stripLit [obChar] (dropWs s1) with
    | some s2 =>
      lazyScan cbChar
        (fun body rest => afterLayout idG dataG (obChar :: body ++ [cbChar]) rest)
        [] s2
    | Option.none => Option.none
  | Option.none => Option.none

/-- Attempt `NEWPLOT_PATTERN` anchored at the head of `s`. -/
def matchAt (s : List Char) : Option NPMatch :=
  match stripLit npLit s with
  | some s1 =>
    match stripLit ['('] (dropWs s1) with
    | some s2 =>
      match scanId (dropWs s2) with
      | some (idG, s3) =>
        match stripLit [','] (dropWs s3) with
        | some s4 =>
          match stripLit ['['] (dropWs s4) with
          | some s5 =>
            lazyScan ']'
              (fun body rest => afterData idG ('[' :: body ++ [']']) rest)
              [] s5
          | Option.none => Option.none
        | Option.none => Option.none
      | Option.none => Option.none
    | Option.none => Option.none
  | Option.none => Option.none

/-- `NEWPLOT_PATTERN.search`: leftmost position whose anchored match
succeeds. -/
def searchNP : List Char → Option NPMatch
  | [] => Option.none
  | c :: rest =>
    match matchAt (c :: rest) with
    | some m => some m
    | Option.none => searchNP rest

/-- One pass of Python `str.replace(pat, rep)`: left-to-right,
non-overlapping.  Fuel-driven so that it reduces definitionally; fuel is the
input length, enough since every step consumes at least one character. -/
def replaceAllF (pat rep : List Char) : Nat → List Char → List Char
  | 0, s => s
  | _ + 1, [] => []
  | n + 1, c :: cs =>
    match stripLit pat (c :: cs) with
    | some r => rep ++ replaceAllF pat rep n r
    | Option.none => c :: replaceAllF pat rep n cs

def replaceAll (pat rep : List Char) (s : List Char) : List Char :=
  replaceAllF pat rep s.length s

/-- `_fix_js`: chained blind replacements
`null`→`None`, then `true`→`True`, then `false`→`False`. -/
def fixChars (s : List Char) : List Char :=
  replaceAll "false".toList "False".toList
    (replaceAll "true".toList "True".toList
      (replaceAll "null".toList "None".toList s))

-- ------------- literal parser (fragment of ast.literal_eval) -------------

def isIdentChar (c : Char) : Bool := c.isAlphanum || c = '_'

def identHeadB : List Char → Bool
  | [] => false
  | c :: _ => isIdentChar c

/-- One escape sequence after a backslash (Python string literal rules for
the escapes that occur here; unknown escapes keep the backslash). -/
def escMap (e : Char) : List Char :=
  if e = bsChar then [bsChar]
  else if e = sqChar then [sqChar]
  else if e = dqChar then [dqChar]
  else if e = 'n' then [nlChar]
  else if e = 't' then [Char.ofNat 9]
  else if e = 'r' then [Char.ofNat 13]
  else [bsChar, e]

/-- Body of a quoted string literal up to the closing quote `q`; a raw
line terminator (newline or carriage return) is a syntax error. -/
def parseStrBody (q : Char) : List Char → Option (List Char × List Char)
  | [] => Option.none
  | c :: cs =>
    if c = q then some ([], cs)
    else if c = nlChar then Option.none
    else if c = crChar then Option.none
    else if c = bsChar then
      match cs with
      | [] => Option.none
      | e :: cs' =>
        match parseStrBody q cs' with
        | some (b, r) => some (escMap e ++ b, r)
        | Option.none => Option.none
    else
      match parseStrBody q cs with
      | some (b, r) => some (c :: b, r)
      | Option.none => Option.none

def parseDigitsAcc (acc : Nat) : List Char → Nat × List Char
  | [] => (acc, [])
  | c :: cs =>
    if c.isDigit then parseDigitsAcc (acc * 10 + (c.toNat - 48)) cs else (acc, c :: cs)

def parseDigits : List Char → Option (Nat × List Char)
  | [] => Option.none
  | c :: cs => if c.isDigit then some (parseDigitsAcc (c.toNat - 48) cs) else Option.none

/-- A decimal integer numeral (the numeric fragment this model supports;
float syntax is not modelled and is treated as a parse failure, which in
the program is caught and becomes a passthrough). -/
def parseNum (neg : Bool) (s : List Char) : Option (PyVal × List Char) :=
  match parseDigits s with
  | some (v, r) =>
    match r with
    | [] => some (PyVal.int (if neg then -(v : Int) else (v : Int)), [])
    | c :: _ =>
      if c = '.' || isIdentChar c then Option.none
      else some (PyVal.int (if neg then -(v : Int) else (v : Int)), r)
  | Option.none => Option.none

/-- Keys of a Python dict literal must be hashable: scalars here; a list or
dict key raises and the whole parse fails. -/
def hashableKey : PyVal → Bool
  | PyVal.list _ => false
  | PyVal.dict _ => false
  | _ => true

mutual

/-- One literal value (fuel-driven; each recursive call decrements fuel and
consumes input, so fuel = input length is enough). -/
def parseVal : Nat → List Char → Option (PyVal × List Char)
  | 0, _ => Option.none
  | n + 1, s =>
    match dropWs s with
    | [] => Option.none
    | c :: cs =>
      if c = 'N' then
        match stripLit "one".toList cs with
        | some r => if identHeadB r then Option.none else some (PyVal.none, r)
        | Option.none => Option.none
      else if c = 'T' then
        match stripLit "rue".toList cs with
        | some r => if identHeadB r then Option.none else some (PyVal.bool true, r)
        | Option.none => Option.none
      else if c = 'F' then
        match stripLit "alse".toList cs with
        | some r => if identHeadB r then Option.none else some (PyVal.bool false, r)
        | Option.none => Option.none
      else if c = sqChar || c = dqChar then
        match parseStrBody c cs with
        | some (b, r) => some (PyVal.str (String.mk b), r)
        | Option.none => Option.none
      else if c = '-' then parseNum true (dropWs cs)
      else if c = '+' then parseNum false (dropWs cs)
      else if c.isDigit then parseNum false (c :: cs)
      else if c = '[' then
        match parseListRest n cs with
        | some (vs, r) => some (PyVal.list vs, r)
        | Option.none => Option.none
      else if c = obChar then
        match parseDictRest n cs with
        | some (kvs, r) =>
          some (PyVal.dict (kvs.foldl (fun acc kv => dictInsert acc kv.1 kv.2) []), r)
        | Option.none => Option.none
      else Option.none

/-- Items of a list literal after the opening bracket (trailing comma
allowed, as in Python). -/
def parseListRest : Nat → List Char → Option (List PyVal × List Char)
  | 0, _ => Option.none
  | n + 1, s =>
    match dropWs s with
    | [] => Option.none
    | c :: cs =>
      if c = ']' then some ([], cs)
      else
        match parseVal n (c :: cs) with
        | some (v, r) =>
          match dropWs r with
          | ',' :: r' =>
            match parseListRest n r' with
            | some (vs, rr) => some (v :: vs, rr)
            | Option.none => Option.none
          | ']' :: r' => some ([v], r')
          | _ => Option.none
        | Option.none => Option.none

/-- Items of a dict literal after the opening brace (set literals are not
modelled: they only arise from crafted input and parse failure gives the
same passthrough outcome). -/
def parseDictRest : Nat → List Char → Option (List (PyVal × PyVal) × List Char)
  | 0, _ => Option.none
  | n + 1, s =>
    match dropWs s with
    | [] => Option.none
    | c :: cs =>
      if c = cbChar then some ([], cs)
      else
        match parseVal n (c :: cs) with
        | some (k, r) =>
          if hashableKey k then
            match dropWs r with
            | ':' :: r' =>
              match parseVal n r' with
              | some (v, r2) =>
                match dropWs r2 with
                | ',' :: r3 =>
                  match parseDictRest n r3 with
                  | some (kvs, rr) => some ((k, v) :: kvs, rr)
                  | Option.none => Option.none
                | c2 :: r3 =>
                  if c2 = cbChar then some ([(k, v)], r3) else Option.none
                | [] => Option.none
              | Option.none => Option.none
            | _ => Option.none
          else Option.none
        | Option.none => Option.none

end

/-- `ast.literal_eval` on the captured text: parse one literal, then require
only whitespace to remain. -/
def pyLiteralEval (s : List Char) : Option PyVal :=
  match parseVal (4 * s.length + 8) s with
  | some (v, r) =>
    match dropWs r with
    | [] => some v
    | _ :: _ => Option.none
  | Option.none => Option.none

/-- `extract_plotly_json`: search for the pattern; on a match, parse the
three captured argument texts after `_fix_js`; any parse failure is caught
and yields `none` (the caller passes the output through). -/
def extract_plotly_json (html : List Char) : Option PyVal :=
  match searchNP html with
  | Option.none => Option.none
  | some m =>
    match pyLiteralEval (fixChars m.dataGroup),
          pyLiteralEval (fixChars m.layoutGroup) with
    | some d, some l =>
      match m.configGroup with
      | some cg =>
        match pyLiteralEval (fixChars cg) with
        | some c =>
          some (PyVal.dict [(PyVal.str "data", d), (PyVal.str "layout", l),
                            (PyVal.str "config", c)])
        | Option.none => Option.none
      | Option.none =>
        some (PyVal.dict [(PyVal.str "data", d), (PyVal.str "layout", l),
                          (PyVal.str "config", PyVal.dict [])])
    | _, _ => Option.none

-- ----------------------- normalize_heatmapgl ------------------------

/-- One trace of `fig_json["data"]`: `trace.get("type")` raises on a
non-dict trace (modelled as `Option.none`); a `"heatmapgl"` type tag is
rewritten to `"heatmap"` in place. -/
def fixTrace : PyVal → Option PyVal
  | PyVal.dict kvs =>
    match lookupStr kvs "type" with
    | some (PyVal.str s) =>
      if s = "heatmapgl"
      then some (PyVal.dict (dictInsert kvs (PyVal.str "type") (PyVal.str "heatmap")))
      else some (PyVal.dict kvs)
    | _ => some (PyVal.dict kvs)
  | _ => Option.none

/-- The key rewrite of the dict comprehension:
`"heatmap" if k == "heatmapgl" else k`. -/
def renKey : PyVal → PyVal
  | PyVal.str s => if s = "heatmapgl" then PyVal.str "heatmap" else PyVal.str s
  | k => k

/-- The dict comprehension renaming `"heatmapgl"` keys to `"heatmap"`:
a fresh dict built left to right, a later duplicate key overwriting an
earlier one. -/
def renameHeatmapgl (dkvs : List (PyVal × PyVal)) : List (PyVal × PyVal) :=
  dkvs.foldl (fun acc kv => dictInsert acc (renKey kv.1) kv.2) []

/-- `fixTrace` over all traces, failing if any trace raises. -/
def mapFixTraces : List PyVal → Option (List PyVal)
  | [] => some []
  | t :: ts =>
    match fixTrace t, mapFixTraces ts with
    | some t', some ts' => some (t' :: ts')
    | _, _ => Option.none

/-- `normalize_heatmapgl`.  `Option.none` models an uncaught exception
(`.get` on a non-dict, iteration over a non-list): the call site in
`preprocess` is outside the try/except, so this propagates.  (From
`extract_plotly_json` the data value is always a list; the non-list arm is
an approximation for inputs that cannot occur there.) -/
def normalize_heatmapgl (fig : PyVal) : Option PyVal :=
  match fig with
  | PyVal.dict fkvs =>
    match (lookupStr fkvs "data").getD (PyVal.list []) with
    | PyVal.list traces =>
      match mapFixTraces traces with
      | some traces' =>
        let fkvs1 :=
          match lookupStr fkvs "data" with
          | some _ => dictInsert fkvs (PyVal.str "data") (PyVal.list traces')
          | Option.none => fkvs
        match (lookupStr fkvs "layout").getD (PyVal.dict []) with
        | PyVal.dict lkvs =>
          match (lookupStr lkvs "template").getD (PyVal.dict []) with
          | PyVal.dict tkvs =>
            let tkvs' :=
              match lookupStr tkvs "data" with
              | some (PyVal.dict dkvs) =>
                dictInsert tkvs (PyVal.str "data") (PyVal.dict (renameHeatmapgl dkvs))
              | _ => tkvs
            some (PyVal.dict
              (dictInsert fkvs1 (PyVal.str "layout")
                (PyVal.dict (dictInsert lkvs (PyVal.str "template") (PyVal.dict tkvs')))))
          | _ => Option.none
        | _ => Option.none
      | Option.none => Option.none
    | _ => Option.none
  | _ => Option.none


-- ----------------------------- base64 -----------------------------

abbrev Bytes := List Nat

def b64Alphabet : List Char :=
  "ABCDEFGHIJKLMNOPQRSTUVWXYZabcdefghijklmnopqrstuvwxyz0123456789+/".toList

def b64Char (n : Nat) : Char := b64Alphabet.getD n '='

def b64IndexAux : List Char → Char → Nat → Option Nat
  | [], _, _ => Option.none
  | a :: rest, c, i => if a = c then some i else b64IndexAux rest c (i + 1)

def b64Index (c : Char) : Option Nat := b64IndexAux b64Alphabet c 0

/-- `base64.b64encode` on a byte list (standard alphabet, `=` padding). -/
def b64encode : Bytes → List Char
  | [] => []
  | [a] => [b64Char (a / 4), b64Char (a % 4 * 16), '=', '=']
  | [a, b] => [b64Char (a / 4), b64Char (a % 4 * 16 + b / 16), b64Char (b % 16 * 4), '=']
  | a :: b :: c :: rest =>
    b64Char (a / 4) :: b64Char (a % 4 * 16 + b / 16) ::
    b64Char (b % 16 * 4 + c / 64) :: b64Char (c % 64) :: b64encode rest

/-- Base64 decoding (inverse direction, used to state validity of the
encoded payload). -/
def b64decode : List Char → Option Bytes
  | [] => some []
  | c1 :: c2 :: c3 :: c4 :: rest =>
    if c3 = '=' then
      match rest, b64Index c1, b64Index c2 with
      | [], some a1, some a2 =>
        if c4 = '=' then some [a1 * 4 + a2 / 16] else Option.none
      | _, _, _ => Option.none
    else if c4 = '=' then
      match rest, b64Index c1, b64Index c2, b64Index c3 with
      | [], some a1, some a2, some a3 =>
        some [a1 * 4 + a2 / 16, a2 % 16 * 16 + a3 / 4]
      | _, _, _, _ => Option.none
    else
      match b64Index c1, b64Index c2, b64Index c3, b64Index c4, b64decode rest with
      | some a1, some a2, some a3, some a4, some bs =>
        some ((a1 * 4 + a2 / 16) :: (a2 % 16 * 16 + a3 / 4) :: (a3 % 4 * 64 + a4) :: bs)
      | _, _, _, _, _ => Option.none
  | _ => Option.none

-- -------------------------- notebook model --------------------------

/-- A notebook output record (the fields this component reads or writes:
the output type tag, the MIME-type → content mapping, and the metadata
mapping carrying the image width). -/
structure Output : Type where
  output_type : String
  data : List (String × String)
  metadata : List (String × List (String × Nat))
deriving DecidableEq, Repr

/-- A notebook cell: kind tag and output list (an absent `outputs` entry is
the empty list). -/
structure Cell : Type where
  cell_type : String
  outputs : List Output
deriving DecidableEq, Repr

def mimeLookup : List (String × String) → String → Option String
  | [], _ => Option.none
  | (k, v) :: rest, s => if k = s then some v else mimeLookup rest s

/-- `out.get("data", {}).get("text/html")`. -/
def htmlOf (o : Output) : Option String := mimeLookup o.data "text/html"

/-- The `if not html` truthiness test: absent entry or empty string. -/
def htmlFalsy (o : Output) : Prop := htmlOf o = Option.none ∨ htmlOf o = some ""

/-- The resources `"outputs"` store: filename → raw PNG bytes. -/
abbrev Store := List (String × Bytes)

/-- Store assignment `outputs_store[fname] = png_bytes`. -/
def assocSet : Store → String → Bytes → Store
  | [], k, v => [(k, v)]
  | (k', v') :: rest, k, v =>
    if k' = k then (k', v) :: rest else (k', v') :: assocSet rest k v

/-- The external rendering capability (`go.Figure` + `pio.to_image`),
opaque: given the data and layout values it either fails (any exception,
caught at the call site) or returns PNG bytes together with the width the
constructed figure's layout reports (`fig.layout.width`). -/
abbrev Renderer := PyVal → PyVal → Option (Bytes × Option Nat)

/-- The try-block around figure construction and rendering:
`fig_json["data"]`, `fig_json.get("layout", {})`, then the render call; any
failure inside is caught and reported as `Option.none`. -/
def figRender (render : Renderer) (fig : PyVal) : Option (Bytes × Option Nat) :=
  match fig with
  | PyVal.dict kvs =>
    match lookupStr kvs "data" with
    | some d => render d ((lookupStr kvs "layout").getD (PyVal.dict []))
    | Option.none => Option.none
  | _ => Option.none

/-- `fig.layout.width or 700` (Python truthiness: a zero width also falls
back to 700). -/
def pickWidth : Option Nat → Nat
  | some n => if n = 0 then 700 else n
  | Option.none => 700

/-- Processing of one output inside the cell loop.  The result is
`Option.none` exactly when an exception escapes (only possible from
`normalize_heatmapgl`, which is called outside the try/except); otherwise
the output is passed through unchanged or replaced by the static-image
output, threading the store and the fresh-name counter. -/
def processOutput (render : Renderer) (gen : Nat → String)
    (stc : Store × Nat) (o : Output) : Option (Output × (Store × Nat)) :=
  match htmlOf o with
  | Option.none => some (o, stc)
  | some h =>
    if h = "" then some (o, stc)
    else
      match extract_plotly_json h.toList with
      | Option.none => some (o, stc)
      | some fig =>
        match normalize_heatmapgl fig with
        | Option.none => Option.none
        | some fig2 =>
          match figRender render fig2 with
          | Option.none => some (o, stc)
          | some (png, w) =>
            let fname := "plotly_static_" ++ gen stc.2 ++ ".png"
            some (⟨"display_data",
                   [("image/png", String.mk (b64encode png))],
                   [("image/png", [("width", pickWidth w)])]⟩,
                  (assocSet stc.1 fname png, stc.2 + 1))

def processOutputs (render : Renderer) (gen : Nat → String) :
    List Output → Store × Nat → Option (List Output × (Store × Nat))
  | [], stc => some ([], stc)
  | o :: os, stc =>
    match processOutput render gen stc o with
    | some (o', stc') =>
      match processOutputs render gen os stc' with
      | some (os', stc'') => some (o' :: os', stc'')
      | Option.none => Option.none
    | Option.none => Option.none

def processCells (render : Renderer) (gen : Nat → String) :
    List Cell → Store × Nat → Option (List Cell × (Store × Nat))
  | [], stc => some ([], stc)
  | c :: cs, stc =>
    if c.cell_type = "code" then
      match processOutputs render gen c.outputs stc with
      | some (outs', stc') =>
        match processCells render gen cs stc' with
        | some (cs', stc'') => some ({ c with outputs := outs' } :: cs', stc'')
        | Option.none => Option.none
      | Option.none => Option.none
    else
      match processCells render gen cs stc with
      | some (cs', stc') => some (c :: cs', stc')
      | Option.none => Option.none

/-- `preprocess`.  The notebook is the cell list; the resources mapping is
modelled by its `"outputs"` entry (created empty by `setdefault` when
absent).  `render` is the opaque rendering capability and `gen` the supply
of fresh uuid4 hex identifiers (one per converted chart).  `Option.none`
models an exception escaping `preprocess`. -/
def preprocess (render : Renderer) (gen : Nat → String)
    (nb : List Cell) (store : Store) : Option (List Cell × Store) :=
  match processCells render gen nb (store, 0) with
  | some (cells, stc) => some (cells, stc.1)
  | Option.none => Option.none


-- ------------------- auxiliary, purely descriptive -------------------

/-- Whether a value is a Python dict. -/
def isDictB : PyVal → Bool
  | PyVal.dict _ => true
  | _ => false

/-- The total trace rewrite on dict traces (what `fixTrace` does when it
does not raise). -/
def fixTraceD : PyVal → PyVal
  | PyVal.dict kvs =>
    match lookupStr kvs "type" with
    | some (PyVal.str s) =>
      if s = "heatmapgl"
      then PyVal.dict (dictInsert kvs (PyVal.str "type") (PyVal.str "heatmap"))
      else PyVal.dict kvs
    | _ => PyVal.dict kvs
  | v => v

/-- The shape `extract_plotly_json` always returns on success. -/
def mkFig (ts : List PyVal) (lay cfg : PyVal) : PyVal :=
  PyVal.dict [(PyVal.str "data", PyVal.list ts), (PyVal.str "layout", lay),
              (PyVal.str "config", cfg)]

/-- Substring test used to state the pattern-miss property. -/
def hasSub (pat : List Char) : List Char → Bool
  | [] => pat.isEmpty
  | c :: rest => (stripLit pat (c :: rest)).isSome || hasSub pat rest

-- --------------------- concrete inputs for tests ---------------------

/-- A single-quote character, to build the claim inputs verbatim. -/
def sqS : String := String.mk [sqChar]

def htmlC1 : String :=
  "Plotly.newPlot(" ++ sqS ++ "q" ++ sqS ++ ", [5], \x7b\"a\":2\x7d)"

def htmlC2 : String :=
  "Plotly.newPlot(" ++ sqS ++ "x" ++ sqS ++ ", [1], \x7b\"a\":1\x7d)"

def htmlC3 : String :=
  "Plotly.newPlot(" ++ sqS ++ "x" ++ sqS ++
  ", [\x7b\"type\":\"bar\",\"y\":[1,2,3]\x7d], \x7b\"title\":\"T\"\x7d)"

def htmlC6bad : String :=
  "Plotly.newPlot(" ++ sqS ++ "x" ++ sqS ++ ", [null null], \x7b\"a\":1\x7d)"

def htmlC6 : String :=
  "Plotly.newPlot(" ++ sqS ++ "d" ++ sqS ++ ", [null, true, false], \x7b\"v\":null\x7d)"

def htmlC9 : String :=
  "Plotly.newPlot(" ++ sqS ++ "x" ++ sqS ++ ", [\x7b\"y\":[1]\x7d], \x7b\x7d)"

/-- A fixed fake renderer: four PNG-magic bytes, layout width 350. -/
def render0 : Renderer := fun _ _ => some ([137, 80, 78, 71], some 350)

/-- A fixed uuid4-hex supply. -/
def gen0 : Nat → String := fun _ => "0123456789abcdef0123456789abcdef"

def outChart (h : String) : Output := ⟨"display_data", [("text/html", h)], []⟩

def outPlain : Output := ⟨"stream", [("text/plain", "hi")], []⟩

def outEmptyHtml : Output := ⟨"display_data", [("text/html", "")], []⟩

/-- The chart spec extracted from `htmlC9` (used to instantiate witnesses). -/
def figC9 : PyVal :=
  PyVal.dict [(PyVal.str "data", PyVal.list [PyVal.dict [(PyVal.str "y", PyVal.list [PyVal.int 1])]]),
              (PyVal.str "layout", PyVal.dict []),
              (PyVal.str "config", PyVal.dict [])]

/-- `figC9` after normalization (the `layout.template = {}` default added). -/
def fkvsC9 : List (PyVal × PyVal) :=
  [(PyVal.str "data", PyVal.list [PyVal.dict [(PyVal.str "y", PyVal.list [PyVal.int 1])]]),
   (PyVal.str "layout", PyVal.dict [(PyVal.str "template", PyVal.dict [])]),
   (PyVal.str "config", PyVal.dict [])]

def dvC9 : PyVal := PyVal.list [PyVal.dict [(PyVal.str "y", PyVal.list [PyVal.int 1])]]

-- ------------------------------ theorems ------------------------------

/-- C3: extracting from HTML holding the invocation
`Plotly.newPlot('x', [{"type":"bar","y":[1,2,3]}], {"title":"T"})` yields
data `[{"type":"bar","y":[1,2,3]}]`, layout `{"title":"T"}` and config `{}`
(the config group is absent, so the empty mapping is used). -/
theorem C3_round_trip :
    extract_plotly_json htmlC3.toList =
      some (PyVal.dict
        [(PyVal.str "data",
          PyVal.list [PyVal.dict
            [(PyVal.str "type", PyVal.str "bar"),
             (PyVal.str "y", PyVal.list [PyVal.int 1, PyVal.int 2, PyVal.int 3])]]),
         (PyVal.str "layout", PyVal.dict [(PyVal.str "title", PyVal.str "T")]),
         (PyVal.str "config", PyVal.dict [])]) := by
  rfl

/-- C2: the claim that no error escapes `preprocess` fails.  On a code cell
whose HTML is `Plotly.newPlot('x', [1], {"a":1})` the extracted data list
holds the non-dict trace `1`; `normalize_heatmapgl` is invoked outside the
try/except and `trace.get` on the int raises, so `preprocess` itself raises
(modelled by `Option.none`) instead of passing the output through. -/
theorem C2_exception_escapes :
    preprocess render0 gen0 [⟨"code", [outChart htmlC2]⟩] [] = Option.none := by
  rfl

/-- C1 counterexample: for this code cell with exactly one output,
`preprocess` does not produce a one-output result (or any result): the
uncaught exception from `normalize_heatmapgl` aborts processing, so the
claim that every code cell with N outputs yields exactly N outputs fails. -/
theorem C1_counterexample :
    preprocess render0 gen0 [⟨"code", [outChart htmlC1]⟩] [] = Option.none := by
  rfl

/-- C4 counterexample: (1) with `layout.template = 5` (present but not a
mapping) the operation is not a no-op — it raises (`Option.none`) and no
template key is guaranteed; (2) with `template.data =
{"heatmapgl": 1, "heatmap": 2}` the later duplicate wins in the rebuilt
dict, so the `heatmapgl` value `1` is not preserved. -/
theorem C4_counterexample :
    normalize_heatmapgl
      (PyVal.dict [(PyVal.str "data", PyVal.list []),
                   (PyVal.str "layout",
                    PyVal.dict [(PyVal.str "template", PyVal.int 5)])])
      = Option.none
    ∧ normalize_heatmapgl
        (PyVal.dict [(PyVal.str "data", PyVal.list []),
                     (PyVal.str "layout",
                      PyVal.dict [(PyVal.str "template",
                        PyVal.dict [(PyVal.str "data",
                          PyVal.dict [(PyVal.str "heatmapgl", PyVal.int 1),
                                      (PyVal.str "heatmap", PyVal.int 2)])])])])
        = some
          (PyVal.dict [(PyVal.str "data", PyVal.list []),
                       (PyVal.str "layout",
                        PyVal.dict [(PyVal.str "template",
                          PyVal.dict [(PyVal.str "data",
                            PyVal.dict [(PyVal.str "heatmap", PyVal.int 2)])])])]) := by
  exact ⟨rfl, rfl⟩

/-- C6 counterexample: `Plotly.newPlot('x', [null null], {"a":1})` is a
matched invocation whose data body holds the bare token `null`, yet
extraction does not parse successfully (the body is ill-formed), refuting
the unconditional "parses successfully". -/
theorem C6_counterexample :
    (searchNP htmlC6bad.toList).map (fun m => m.dataGroup)
      = some ("[null null]".toList)
    ∧ extract_plotly_json htmlC6bad.toList = Option.none := by
  exact ⟨rfl, rfl⟩

/-- C9 counterexample: on a successfully converted chart the store key is
`"plotly_static_" ++ hex ++ ".png"`, which is not of the claimed form
`hex ++ ".png"`. -/
theorem C9_counterexample :
    preprocess render0 gen0 [⟨"code", [outChart htmlC9]⟩] [] =
      some ([⟨"code", [⟨"display_data", [("image/png", "iVBORw==")],
              [("image/png", [("width", 350)])]⟩]⟩],
            [("plotly_static_0123456789abcdef0123456789abcdef.png",
              [137, 80, 78, 71])])
    ∧ "plotly_static_0123456789abcdef0123456789abcdef.png" ≠ gen0 0 ++ ".png" := by
  refine ⟨rfl, ?_⟩
  decide

-- ---------------------------- helper lemmas ----------------------------

theorem matchAt_some_strip {s : List Char} {m : NPMatch} (h : matchAt s = some m) :
    (stripLit npLit s).isSome := by
  unfold matchAt at h
  cases hs : stripLit npLit s with
  | none => rw [hs] at h; exact absurd h (by simp)
  | some s1 => simp

theorem searchNP_none_of_no_sub :
    ∀ s : List Char, hasSub npLit s = false → searchNP s = Option.none := by
  intro s
  induction s with
  | nil => intro _; rfl
  | cons c rest ih =>
    intro h
    rw [hasSub] at h
    have h1 : (stripLit npLit (c :: rest)).isSome = false := by
      cases hx : (stripLit npLit (c :: rest)).isSome <;> simp [hx] at h ⊢
    have h2 : hasSub npLit rest = false := by
      cases hx : hasSub npLit rest <;> simp [hx] at h ⊢
    rw [searchNP]
    cases hm : matchAt (c :: rest) with
    | some m => exact absurd (matchAt_some_strip hm) (by simp [h1])
    | none => exact ih h2

/-- C8: HTML with no `Plotly.newPlot` substring yields no extraction, and
the corresponding output is passed through with the store untouched. -/
theorem C8_pattern_miss :
    (∀ html : List Char, hasSub npLit html = false →
       extract_plotly_json html = Option.none)
    ∧ (∀ (render : Renderer) (gen : Nat → String) (stc : Store × Nat)
         (o : Output) (h : String), htmlOf o = some h →
         hasSub npLit h.toList = false →
         processOutput render gen stc o = some (o, stc)) := by
  have hx : ∀ html : List Char, hasSub npLit html = false →
      extract_plotly_json html = Option.none := by
    intro html h
    unfold extract_plotly_json
    rw [searchNP_none_of_no_sub html h]
  refine ⟨hx, ?_⟩
  intro render gen stc o h ho hsub
  simp only [processOutput, ho]
  by_cases he : h = ""
  · rw [if_pos he]
  · rw [if_neg he, hx h.toList hsub]

/-- C8 witness: a plain HTML fragment with no chart invocation. -/
theorem C8_witness :
    extract_plotly_json ("<div>hello</div>".toList) = Option.none :=
  C8_pattern_miss.1 ("<div>hello</div>".toList) (by decide)

/-- C10: an output whose `"text/html"` entry is the empty string is treated
exactly like one with no HTML entry — the truthiness test short-circuits and
the output is passed through unchanged, the store untouched. -/
theorem C10_empty_html :
    (∀ (render : Renderer) (gen : Nat → String) (stc : Store × Nat) (o : Output),
       htmlOf o = some "" → processOutput render gen stc o = some (o, stc))
    ∧ (∀ (render : Renderer) (gen : Nat → String) (stc : Store × Nat) (o : Output),
       htmlOf o = Option.none → processOutput render gen stc o = some (o, stc)) := by
  constructor
  · intro render gen stc o ho
    simp [processOutput, ho]
  · intro render gen stc o ho
    simp only [processOutput, ho]

/-- C10 witness: the empty-HTML output is passed through. -/
theorem C10_witness :
    processOutput render0 gen0 ([], 0) outEmptyHtml = some (outEmptyHtml, ([], 0)) :=
  C10_empty_html.1 render0 gen0 ([], 0) outEmptyHtml rfl

theorem b64Index_b64Char : ∀ n : Fin 64, b64Index (b64Char n.val) = some n.val := by
  decide

theorem b64Char_ne_pad : ∀ n : Fin 64, ¬ b64Char n.val = '=' := by
  decide

theorem b64_roundtrip : ∀ bs : Bytes, (∀ x ∈ bs, x < 256) →
    b64decode (b64encode bs) = some bs
  | [], _ => rfl
  | [a], h => by
    have ha : a < 256 := h a (by simp)
    have h1 : b64Index (b64Char (a / 4)) = some (a / 4) :=
      b64Index_b64Char ⟨a / 4, by omega⟩
    have h2 : b64Index (b64Char (a % 4 * 16)) = some (a % 4 * 16) :=
      b64Index_b64Char ⟨a % 4 * 16, by omega⟩
    simp only [b64encode, b64decode, h1, h2, if_pos]
    simp only [Option.some.injEq, List.cons.injEq, and_true]
    omega
  | [a, b], h => by
    have ha : a < 256 := h a (by simp)
    have hb : b < 256 := h b (by simp)
    have h1 : b64Index (b64Char (a / 4)) = some (a / 4) :=
      b64Index_b64Char ⟨a / 4, by omega⟩
    have h2 : b64Index (b64Char (a % 4 * 16 + b / 16)) = some (a % 4 * 16 + b / 16) :=
      b64Index_b64Char ⟨a % 4 * 16 + b / 16, by omega⟩
    have h3 : b64Index (b64Char (b % 16 * 4)) = some (b % 16 * 4) :=
      b64Index_b64Char ⟨b % 16 * 4, by omega⟩
    have hne : ¬ b64Char (b % 16 * 4) = '=' := b64Char_ne_pad ⟨b % 16 * 4, by omega⟩
    simp only [b64encode, b64decode, if_neg hne, h1, h2, h3, if_pos]
    simp only [Option.some.injEq, List.cons.injEq, and_true]
    omega
  | a :: b :: c :: rest, h => by
    have ha : a < 256 := h a (by simp)
    have hb : b < 256 := h b (by simp)
    have hc : c < 256 := h c (by simp)
    have htail : ∀ x ∈ rest, x < 256 := fun x hx => h x (by simp [hx])
    have h1 : b64Index (b64Char (a / 4)) = some (a / 4) :=
      b64Index_b64Char ⟨a / 4, by omega⟩
    have h2 : b64Index (b64Char (a % 4 * 16 + b / 16)) = some (a % 4 * 16 + b / 16) :=
      b64Index_b64Char ⟨a % 4 * 16 + b / 16, by omega⟩
    have h3 : b64Index (b64Char (b % 16 * 4 + c / 64)) = some (b % 16 * 4 + c / 64) :=
      b64Index_b64Char ⟨b % 16 * 4 + c / 64, by omega⟩
    have h4 : b64Index (b64Char (c % 64)) = some (c % 64) :=
      b64Index_b64Char ⟨c % 64, by omega⟩
    have hne3 : ¬ b64Char (b % 16 * 4 + c / 64) = '=' :=
      b64Char_ne_pad ⟨b % 16 * 4 + c / 64, by omega⟩
    have hne4 : ¬ b64Char (c % 64) = '=' := b64Char_ne_pad ⟨c % 64, by omega⟩
    have hrec := b64_roundtrip rest htail
    simp only [b64encode, b64decode, if_neg hne3, if_neg hne4, h1, h2, h3, h4, hrec]
    simp only [Option.some.injEq, List.cons.injEq]
    refine ⟨by omega, by omega, by omega, trivial⟩

/-- C7: on a successfully rendered chart the replacement output is of type
`display_data`, its payload is exactly the one key `image/png` holding a
base64 string that decodes back to the non-empty PNG bytes, and the
metadata width is the width the figure layout reports (nonzero when
reported, per the rendering library's validation), else 700. -/
theorem C7_success_shape
    (render : Renderer) (gen : Nat → String) (store : Store) (ctr : Nat)
    (o : Output) (h : String) (fig : PyVal) (fkvs : List (PyVal × PyVal))
    (dv : PyVal) (png : Bytes) (w : Option Nat)
    (h1 : htmlOf o = some h) (h2 : h ≠ "")
    (h3 : extract_plotly_json h.toList = some fig)
    (h4 : normalize_heatmapgl fig = some (PyVal.dict fkvs))
    (h5 : lookupStr fkvs "data" = some dv)
    (h6 : render dv ((lookupStr fkvs "layout").getD (PyVal.dict [])) = some (png, w))
    (h7 : png ≠ []) (h8 : ∀ x ∈ png, x < 256)
    (h9 : ∀ n, w = some n → 0 < n) :
    processOutput render gen (store, ctr) o =
      some (⟨"display_data", [("image/png", String.mk (b64encode png))],
             [("image/png", [("width", w.getD 700)])]⟩,
            (assocSet store ("plotly_static_" ++ gen ctr ++ ".png") png, ctr + 1))
    ∧ b64decode (String.mk (b64encode png)).toList = some png
    ∧ png ≠ [] := by
  have hw : pickWidth w = w.getD 700 := by
    cases w with
    | none => rfl
    | some n =>
      have hn := h9 n rfl
      simp only [pickWidth, Option.getD]
      rw [if_neg (by omega)]
  refine ⟨?_, ?_, h7⟩
  · simp only [processOutput, h1, if_neg h2, h3, h4, figRender, h5, h6, hw]
  · show b64decode (b64encode png) = some png
    exact b64_roundtrip png h8

/-- C7 witness: the success-path shape at a concrete chart output with the
fixed fake renderer. -/
theorem C7_witness :
    b64decode (String.mk (b64encode [137, 80, 78, 71])).toList = some [137, 80, 78, 71]
    ∧ ([137, 80, 78, 71] : Bytes) ≠ [] :=
  (C7_success_shape render0 gen0 [] 0 (outChart htmlC9) htmlC9 figC9 fkvsC9 dvC9
    [137, 80, 78, 71] (some 350) rfl (by decide) rfl rfl rfl rfl (by decide)
    (by decide) (by intro n hn; cases hn; decide)).2

theorem assocSet_fresh : ∀ (st : Store) (k : String) (v : Bytes),
    (∀ kv ∈ st, kv.1 ≠ k) → assocSet st k v = st ++ [(k, v)] := by
  intro st k v
  induction st with
  | nil => intro _; rfl
  | cons kv rest ih =>
    intro hf
    obtain ⟨k', v'⟩ := kv
    have hk : k' ≠ k := hf (k', v') (by simp)
    simp only [assocSet, if_neg hk, List.cons_append, List.cons.injEq, true_and]
    exact ih (fun kv hkv => hf kv (by simp [hkv]))

/-- C9 (amended): each successfully converted chart appends exactly one new
entry to the store, keyed `"plotly_static_" ++ uuid-hex ++ ".png"`, holding
the raw (non-base64) PNG bytes; when the generated filename is fresh the
existing entries are all preserved unchanged (never read or overwritten). -/
theorem C9_amended
    (render : Renderer) (gen : Nat → String) (store : Store) (ctr : Nat)
    (o : Output) (h : String) (fig : PyVal) (fkvs : List (PyVal × PyVal))
    (dv : PyVal) (png : Bytes) (w : Option Nat)
    (h1 : htmlOf o = some h) (h2 : h ≠ "")
    (h3 : extract_plotly_json h.toList = some fig)
    (h4 : normalize_heatmapgl fig = some (PyVal.dict fkvs))
    (h5 : lookupStr fkvs "data" = some dv)
    (h6 : render dv ((lookupStr fkvs "layout").getD (PyVal.dict [])) = some (png, w))
    (hfresh : ∀ kv ∈ store, kv.1 ≠ "plotly_static_" ++ gen ctr ++ ".png") :
    processOutput render gen (store, ctr) o =
      some (⟨"display_data", [("image/png", String.mk (b64encode png))],
             [("image/png", [("width", pickWidth w)])]⟩,
            (store ++ [("plotly_static_" ++ gen ctr ++ ".png", png)], ctr + 1)) := by
  simp only [processOutput, h1, if_neg h2, h3, h4, figRender, h5, h6,
             assocSet_fresh store _ png hfresh]

/-- C9 witness: one converted chart appends its entry after an existing
unrelated store entry. -/
theorem C9_witness :
    processOutput render0 gen0 ([("keep.png", [0])], 0) (outChart htmlC9) =
      some (⟨"display_data", [("image/png", String.mk (b64encode [137, 80, 78, 71]))],
             [("image/png", [("width", pickWidth (some 350))])]⟩,
            ([("keep.png", [0]),
              ("plotly_static_0123456789abcdef0123456789abcdef.png", [137, 80, 78, 71])], 1)) :=
  C9_amended render0 gen0 [("keep.png", [0])] 0 (outChart htmlC9) htmlC9 figC9 fkvsC9
    dvC9 [137, 80, 78, 71] (some 350) rfl (by decide) rfl rfl rfl rfl (by decide)

theorem processOutput_falsy (render : Renderer) (gen : Nat → String)
    (stc : Store × Nat) (o : Output) (hf : htmlFalsy o) :
    processOutput render gen stc o = some (o, stc) := by
  cases hf with
  | inl h => simp only [processOutput, h]
  | inr h => simp [processOutput, h]

theorem processOutputs_spec (render : Renderer) (gen : Nat → String) :
    ∀ (os : List Output) (stc : Store × Nat) (os' : List Output) (stc' : Store × Nat),
    processOutputs render gen os stc = some (os', stc') →
    os'.length = os.length ∧
    ∀ j (hj : j < os.length) (hj' : j < os'.length),
      htmlFalsy (os.get ⟨j, hj⟩) → os'.get ⟨j, hj'⟩ = os.get ⟨j, hj⟩ := by
  intro os
  induction os with
  | nil =>
    intro stc os' stc' h
    simp only [processOutputs, Option.some.injEq, Prod.mk.injEq] at h
    refine ⟨by simp [← h.1], ?_⟩
    intro j hj
    exact absurd hj (by simp)
  | cons o os ih =>
    intro stc os' stc' h
    cases ho : processOutput render gen stc o with
    | none => simp [processOutputs, ho] at h
    | some p1 =>
      obtain ⟨o1, stc1⟩ := p1
      cases hrest : processOutputs render gen os stc1 with
      | none => simp [processOutputs, ho, hrest] at h
      | some p2 =>
        obtain ⟨os1, stc2⟩ := p2
        simp only [processOutputs, ho, hrest, Option.some.injEq, Prod.mk.injEq] at h
        obtain ⟨hos, hstc⟩ := h
        subst hstc
        have IH := ih stc1 os1 stc2 hrest
        constructor
        · rw [← hos]; simp [IH.1]
        · intro j hj hj' hF
          subst hos
          cases j with
          | zero =>
            simp only [List.get] at hF ⊢
            have hfo := processOutput_falsy render gen stc o hF
            rw [hfo] at ho
            simp only [Option.some.injEq, Prod.mk.injEq] at ho
            exact ho.1.symm
          | succ j =>
            have hj2 : j < os.length := by simp at hj; omega
            have hj2' : j < os1.length := by simp at hj'; omega
            simp only [List.get] at hF ⊢
            exact IH.2 j hj2 hj2' hF

theorem processCells_spec (render : Renderer) (gen : Nat → String) :
    ∀ (cells : List Cell) (stc : Store × Nat) (cells' : List Cell) (stc' : Store × Nat),
    processCells render gen cells stc = some (cells', stc') →
    cells'.length = cells.length ∧
    ∀ i (hi : i < cells.length) (hi' : i < cells'.length),
      ((cells.get ⟨i, hi⟩).cell_type ≠ "code" → cells'.get ⟨i, hi'⟩ = cells.get ⟨i, hi⟩) ∧
      (cells'.get ⟨i, hi'⟩).cell_type = (cells.get ⟨i, hi⟩).cell_type ∧
      (cells'.get ⟨i, hi'⟩).outputs.length = (cells.get ⟨i, hi⟩).outputs.length ∧
      ∀ j (hj : j < (cells.get ⟨i, hi⟩).outputs.length)
          (hj' : j < (cells'.get ⟨i, hi'⟩).outputs.length),
        htmlFalsy ((cells.get ⟨i, hi⟩).outputs.get ⟨j, hj⟩) →
        (cells'.get ⟨i, hi'⟩).outputs.get ⟨j, hj'⟩ = (cells.get ⟨i, hi⟩).outputs.get ⟨j, hj⟩ := by
  intro cells
  induction cells with
  | nil =>
    intro stc cells' stc' h
    simp only [processCells, Option.some.injEq, Prod.mk.injEq] at h
    refine ⟨by simp [← h.1], ?_⟩
    intro i hi
    exact absurd hi (by simp)
  | cons c cs ih =>
    intro stc cells' stc' h
    by_cases hc : c.cell_type = "code"
    · cases ho : processOutputs render gen c.outputs stc with
      | none => simp [processCells, hc, ho] at h
      | some p1 =>
        obtain ⟨outs1, stc1⟩ := p1
        cases hrest : processCells render gen cs stc1 with
        | none => simp [processCells, hc, ho, hrest] at h
        | some p2 =>
          obtain ⟨cs1, stc2⟩ := p2
          have hcomp : processCells render gen (c :: cs) stc
              = some ({ c with outputs := outs1 } :: cs1, stc2) := by
            simp [processCells, hc, ho, hrest]
          rw [hcomp] at h
          injection h with h1
          injection h1 with hcs hstc
          subst hcs
          subst hstc
          have IHo := processOutputs_spec render gen c.outputs stc outs1 stc1 ho
          have IH := ih stc1 cs1 stc2 hrest
          constructor
          · simp [IH.1]
          · intro i hi hi'
            cases i with
            | zero =>
              refine ⟨fun hne => absurd hc hne, rfl, ?_, ?_⟩
              · simpa using IHo.1
              · intro j hj hj' hF
                exact IHo.2 j hj (by simpa using hj') hF
            | succ i =>
              have hi2 : i < cs.length := by simp at hi; omega
              have hi2' : i < cs1.length := by simp at hi'; omega
              simp only [List.get]
              exact IH.2 i hi2 hi2'
    · cases hrest : processCells render gen cs stc with
      | none => simp [processCells, hc, hrest] at h
      | some p2 =>
        obtain ⟨cs1, stc2⟩ := p2
        have hcomp : processCells render gen (c :: cs) stc = some (c :: cs1, stc2) := by
          simp [processCells, hc, hrest]
        rw [hcomp] at h
        injection h with h1
        injection h1 with hcs hstc
        subst hcs
        subst hstc
        have IH := ih stc cs1 stc2 hrest
        constructor
        · simp [IH.1]
        · intro i hi hi'
          cases i with
          | zero =>
            refine ⟨fun _ => rfl, rfl, rfl, ?_⟩
            intro j hj hj' _
            rfl
          | succ i =>
            have hi2 : i < cs.length := by simp at hi; omega
            have hi2' : i < cs1.length := by simp at hi'; omega
            simp only [List.get]
            exact IH.2 i hi2 hi2'

/-- C1 (amended): whenever `preprocess` completes (no uncaught normalization
error), every cell position is preserved one-to-one: the result has as many
cells, non-code cells are returned exactly as they were, each code cell
keeps its kind and yields exactly one output per input output at the same
position, and every output whose `"text/html"` entry is absent or empty is
returned with all fields identical. -/
theorem C1_amended
    (render : Renderer) (gen : Nat → String) (nb : List Cell) (store : Store)
    (nb2 : List Cell) (store2 : Store)
    (h : preprocess render gen nb store = some (nb2, store2)) :
    nb2.length = nb.length ∧
    ∀ i (hi : i < nb.length) (hi' : i < nb2.length),
      ((nb.get ⟨i, hi⟩).cell_type ≠ "code" → nb2.get ⟨i, hi'⟩ = nb.get ⟨i, hi⟩) ∧
      (nb2.get ⟨i, hi'⟩).cell_type = (nb.get ⟨i, hi⟩).cell_type ∧
      (nb2.get ⟨i, hi'⟩).outputs.length = (nb.get ⟨i, hi⟩).outputs.length ∧
      ∀ j (hj : j < (nb.get ⟨i, hi⟩).outputs.length)
          (hj' : j < (nb2.get ⟨i, hi'⟩).outputs.length),
        htmlFalsy ((nb.get ⟨i, hi⟩).outputs.get ⟨j, hj⟩) →
        (nb2.get ⟨i, hi'⟩).outputs.get ⟨j, hj'⟩ = (nb.get ⟨i, hi⟩).outputs.get ⟨j, hj⟩ := by
  cases hpc : processCells render gen nb (store, 0) with
  | none => simp [preprocess, hpc] at h
  | some p =>
    obtain ⟨cells, stc⟩ := p
    have hcomp : preprocess render gen nb store = some (cells, stc.1) := by
      simp [preprocess, hpc]
    rw [hcomp] at h
    injection h with h1
    injection h1 with hcells hst
    subst hcells
    exact processCells_spec render gen nb (store, 0) cells stc hpc

/-- C1 witness: a markdown cell and a code cell with one plain output pass
through `preprocess` unchanged, with matching lengths. -/
theorem C1_witness :
    preprocess render0 gen0 [⟨"markdown", [outPlain]⟩, ⟨"code", [outPlain]⟩] [] =
      some ([⟨"markdown", [outPlain]⟩, ⟨"code", [outPlain]⟩], [])
    ∧ ([⟨"markdown", [outPlain]⟩, ⟨"code", [outPlain]⟩] : List Cell).length =
        ([⟨"markdown", [outPlain]⟩, ⟨"code", [outPlain]⟩] : List Cell).length :=
  ⟨rfl, (C1_amended render0 gen0 [⟨"markdown", [outPlain]⟩, ⟨"code", [outPlain]⟩] []
    [⟨"markdown", [outPlain]⟩, ⟨"code", [outPlain]⟩] [] rfl).1⟩

theorem parseVal_none_token (n : Nat) (rest : List Char) (h : identHeadB rest = false) :
    parseVal (n + 1) ('N' :: 'o' :: 'n' :: 'e' :: rest) = some (PyVal.none, rest) := by
  have hd : dropWs ('N' :: 'o' :: 'n' :: 'e' :: rest)
      = 'N' :: 'o' :: 'n' :: 'e' :: rest := by
    rw [dropWs.eq_def]
    simp only [if_neg (show ¬ isSpaceChar 'N' = true from by decide)]
  rw [parseVal.eq_def]
  simp only [hd]
  rw [if_pos trivial]
  rw [show ("one".toList : List Char) = ['o', 'n', 'e'] from rfl]
  simp [stripLit, h]

theorem parseVal_true_token (n : Nat) (rest : List Char) (h : identHeadB rest = false) :
    parseVal (n + 1) ('T' :: 'r' :: 'u' :: 'e' :: rest) = some (PyVal.bool true, rest) := by
  have hd : dropWs ('T' :: 'r' :: 'u' :: 'e' :: rest)
      = 'T' :: 'r' :: 'u' :: 'e' :: rest := by
    rw [dropWs.eq_def]
    simp only [if_neg (show ¬ isSpaceChar 'T' = true from by decide)]
  rw [parseVal.eq_def]
  simp only [hd]
  rw [if_pos trivial]
  rw [show ("rue".toList : List Char) = ['r', 'u', 'e'] from rfl]
  simp [stripLit, h]

theorem parseVal_false_token (n : Nat) (rest : List Char) (h : identHeadB rest = false) :
    parseVal (n + 1) ('F' :: 'a' :: 'l' :: 's' :: 'e' :: rest)
      = some (PyVal.bool false, rest) := by
  have hd : dropWs ('F' :: 'a' :: 'l' :: 's' :: 'e' :: rest)
      = 'F' :: 'a' :: 'l' :: 's' :: 'e' :: rest := by
    rw [dropWs.eq_def]
    simp only [if_neg (show ¬ isSpaceChar 'F' = true from by decide)]
  rw [parseVal.eq_def]
  simp only [hd]
  rw [if_pos trivial]
  rw [show ("alse".toList : List Char) = ['a', 'l', 's', 'e'] from rfl]
  simp [stripLit, h]

/-- C6 (amended): bare `null`/`true`/`false` tokens never cause a parse
failure by themselves — the rewrite maps each token to `None`/`True`/`False`
and the literal parser maps those (wherever a value is expected and no
identifier character follows) to the host null/true/false values; on an
otherwise well-formed invocation holding all three tokens, extraction
succeeds with exactly those values.  (When the bodies are otherwise
ill-formed, extraction still fails: see the counterexample.) -/
theorem C6_amended :
    (∀ (n : Nat) (rest : List Char), identHeadB rest = false →
       parseVal (n + 1) ('N' :: 'o' :: 'n' :: 'e' :: rest) = some (PyVal.none, rest))
    ∧ (∀ (n : Nat) (rest : List Char), identHeadB rest = false →
       parseVal (n + 1) ('T' :: 'r' :: 'u' :: 'e' :: rest) = some (PyVal.bool true, rest))
    ∧ (∀ (n : Nat) (rest : List Char), identHeadB rest = false →
       parseVal (n + 1) ('F' :: 'a' :: 'l' :: 's' :: 'e' :: rest)
         = some (PyVal.bool false, rest))
    ∧ fixChars "null".toList = "None".toList
    ∧ fixChars "true".toList = "True".toList
    ∧ fixChars "false".toList = "False".toList
    ∧ extract_plotly_json htmlC6.toList =
        some (PyVal.dict
          [(PyVal.str "data",
            PyVal.list [PyVal.none, PyVal.bool true, PyVal.bool false]),
           (PyVal.str "layout", PyVal.dict [(PyVal.str "v", PyVal.none)]),
           (PyVal.str "config", PyVal.dict [])]) :=
  ⟨parseVal_none_token, parseVal_true_token, parseVal_false_token, rfl, rfl, rfl, rfl⟩

/-- C6 witness: the `None` token fact at fuel 0 and an empty remainder. -/
theorem C6_witness :
    parseVal 1 ('N' :: 'o' :: 'n' :: 'e' :: []) = some (PyVal.none, []) :=
  C6_amended.1 0 [] rfl

theorem keyEq_symm : ∀ a b : PyVal, keyEq a b = keyEq b a := by
  intro a b
  cases a <;> cases b <;> simp [keyEq, eq_comm]

theorem renKey_cases (k : PyVal) :
    renKey k = k ∨ (k = PyVal.str "heatmapgl" ∧ renKey k = PyVal.str "heatmap") := by
  cases k with
  | str s =>
    by_cases hs : s = "heatmapgl"
    · subst hs
      right
      exact ⟨rfl, by simp [renKey]⟩
    · left
      simp [renKey, hs]
  | none => left; rfl
  | bool b => left; rfl
  | int n => left; rfl
  | list xs => left; rfl
  | dict kvs => left; rfl

theorem keyEq_renKey {a b : PyVal} (hab : keyEq a b = false)
    (ha : keyEq a (PyVal.str "heatmap") = false)
    (hb : keyEq b (PyVal.str "heatmap") = false) :
    keyEq (renKey a) (renKey b) = false := by
  rcases renKey_cases a with h1 | ⟨ha1, h1⟩ <;> rcases renKey_cases b with h2 | ⟨hb1, h2⟩
  · rw [h1, h2]; exact hab
  · rw [h1, h2]; exact ha
  · rw [h1, h2, keyEq_symm]; exact hb
  · subst ha1; subst hb1
    exact absurd hab (by decide)

theorem dictInsert_append : ∀ (kvs : List (PyVal × PyVal)) (k v : PyVal),
    (∀ a ∈ kvs, keyEq a.1 k = false) → dictInsert kvs k v = kvs ++ [(k, v)] := by
  intro kvs
  induction kvs with
  | nil => intro k v _; rfl
  | cons a rest ih =>
    intro k v hf
    obtain ⟨k', v'⟩ := a
    have hk : keyEq k' k = false := hf (k', v') (by simp)
    simp only [dictInsert, hk, Bool.false_eq_true, if_false, List.cons_append,
               List.cons.injEq, true_and]
    exact ih k v (fun x hx => hf x (by simp [hx]))

theorem fixTrace_eq (t : PyVal) (h : isDictB t = true) :
    fixTrace t = some (fixTraceD t) := by
  cases t <;> simp [isDictB] at h
  case dict kvs =>
    cases hl : lookupStr kvs "type" with
    | none => simp [fixTrace, fixTraceD, hl]
    | some v =>
      cases v <;> simp [fixTrace, fixTraceD, hl]
      case str s =>
        by_cases hs : s = "heatmapgl" <;> simp [hs]

theorem mapFixTraces_eq : ∀ ts : List PyVal, (∀ t ∈ ts, isDictB t = true) →
    mapFixTraces ts = some (ts.map fixTraceD) := by
  intro ts
  induction ts with
  | nil => intro _; rfl
  | cons t rest ih =>
    intro h
    simp [mapFixTraces, fixTrace_eq t (h t (by simp)),
          ih (fun x hx => h x (by simp [hx]))]

theorem renameHeatmapgl_fold :
    ∀ (dkvs acc : List (PyVal × PyVal)),
    (∀ kv ∈ dkvs, ∀ a ∈ acc, keyEq a.1 (renKey kv.1) = false) →
    dkvs.Pairwise (fun a b => keyEq a.1 b.1 = false) →
    (∀ kv ∈ dkvs, keyEq kv.1 (PyVal.str "heatmap") = false) →
    dkvs.foldl (fun acc kv => dictInsert acc (renKey kv.1) kv.2) acc
      = acc ++ dkvs.map (fun kv => (renKey kv.1, kv.2)) := by
  intro dkvs
  induction dkvs with
  | nil => intro acc _ _ _; simp
  | cons kv rest ih =>
    intro acc hfresh hdist hnh
    simp only [List.foldl_cons, List.map_cons]
    rw [dictInsert_append acc (renKey kv.1) kv.2 (fun a ha => hfresh kv (by simp) a ha)]
    rw [ih (acc ++ [(renKey kv.1, kv.2)]) ?hf ((List.pairwise_cons.mp hdist).2)
         (fun kv2 h2 => hnh kv2 (by simp [h2]))]
    · simp
    case hf =>
      intro kv2 h2 a ha
      rcases List.mem_append.mp ha with ha1 | ha1
      · exact hfresh kv2 (by simp [h2]) a ha1
      · have ha2 : a = (renKey kv.1, kv.2) := by simpa using ha1
        subst ha2
        have hab : keyEq kv.1 kv2.1 = false := (List.pairwise_cons.mp hdist).1 kv2 h2
        have h1h : keyEq kv.1 (PyVal.str "heatmap") = false := hnh kv (by simp)
        have h2h : keyEq kv2.1 (PyVal.str "heatmap") = false := hnh kv2 (by simp [h2])
        exact keyEq_renKey hab h1h h2h

theorem renameHeatmapgl_map (dkvs : List (PyVal × PyVal))
    (hdist : dkvs.Pairwise (fun a b => keyEq a.1 b.1 = false))
    (hnh : ∀ kv ∈ dkvs, keyEq kv.1 (PyVal.str "heatmap") = false) :
    renameHeatmapgl dkvs = dkvs.map (fun kv => (renKey kv.1, kv.2)) := by
  unfold renameHeatmapgl
  rw [renameHeatmapgl_fold dkvs [] (fun _ _ _ ha => absurd ha (by simp)) hdist hnh]
  simp

theorem lookupStr_dictInsert_self : ∀ (kvs : List (PyVal × PyVal)) (s : String) (v : PyVal),
    lookupStr (dictInsert kvs (PyVal.str s) v) s = some v := by
  intro kvs s v
  induction kvs with
  | nil => simp [dictInsert, lookupStr, keyEq]
  | cons a rest ih =>
    obtain ⟨k', v'⟩ := a
    by_cases hk : keyEq k' (PyVal.str s) = true
    · simp [dictInsert, hk, lookupStr]
    · have hk' : keyEq k' (PyVal.str s) = false := by
        cases h2 : keyEq k' (PyVal.str s)
        · rfl
        · exact absurd h2 hk
      simp [dictInsert, hk', lookupStr, ih]

theorem lookupStr_dictInsert_other : ∀ (kvs : List (PyVal × PyVal)) (s t : String) (v : PyVal),
    s ≠ t → lookupStr (dictInsert kvs (PyVal.str s) v) t = lookupStr kvs t := by
  intro kvs s t v hst
  induction kvs with
  | nil => simp [dictInsert, lookupStr, keyEq, hst]
  | cons a rest ih =>
    obtain ⟨k', v'⟩ := a
    by_cases hk : keyEq k' (PyVal.str s) = true
    · have hk2 : keyEq k' (PyVal.str t) = false := by
        cases k' <;> simp [keyEq] at hk ⊢
        case str s' =>
          subst hk
          exact hst
      simp [dictInsert, hk, lookupStr, hk2]
    · have hk' : keyEq k' (PyVal.str s) = false := by
        cases h2 : keyEq k' (PyVal.str s)
        · rfl
        · exact absurd h2 hk
      simp [dictInsert, hk', lookupStr, ih]

theorem normalize_mkFig (ts : List PyVal) (lkvs tkvs : List (PyVal × PyVal)) (cfg : PyVal)
    (hts : ∀ t ∈ ts, isDictB t = true)
    (htmpl : (lookupStr lkvs "template").getD (PyVal.dict []) = PyVal.dict tkvs) :
    normalize_heatmapgl (mkFig ts (PyVal.dict lkvs) cfg)
      = some (PyVal.dict
          [(PyVal.str "data", PyVal.list (ts.map fixTraceD)),
           (PyVal.str "layout",
            PyVal.dict (dictInsert lkvs (PyVal.str "template")
              (PyVal.dict
                (match lookupStr tkvs "data" with
                 | some (PyVal.dict dkvs) =>
                     dictInsert tkvs (PyVal.str "data") (PyVal.dict (renameHeatmapgl dkvs))
                 | _ => tkvs)))),
           (PyVal.str "config", cfg)]) := by
  simp [normalize_heatmapgl, mkFig, lookupStr, keyEq, dictInsert,
        mapFixTraces_eq ts hts, htmpl]

theorem normalize_template_absent (ts : List PyVal) (lkvs : List (PyVal × PyVal))
    (cfg : PyVal) (hts : ∀ t ∈ ts, isDictB t = true)
    (htmpl : lookupStr lkvs "template" = Option.none) :
    normalize_heatmapgl (mkFig ts (PyVal.dict lkvs) cfg)
      = some (PyVal.dict
          [(PyVal.str "data", PyVal.list (ts.map fixTraceD)),
           (PyVal.str "layout",
            PyVal.dict (dictInsert lkvs (PyVal.str "template") (PyVal.dict []))),
           (PyVal.str "config", cfg)]) := by
  have h := normalize_mkFig ts lkvs [] cfg hts (by rw [htmpl]; rfl)
  simpa using h

theorem normalize_data_template_skip (ts : List PyVal)
    (lkvs tkvs : List (PyVal × PyVal)) (cfg : PyVal)
    (hts : ∀ t ∈ ts, isDictB t = true)
    (htmpl : lookupStr lkvs "template" = some (PyVal.dict tkvs))
    (hdata : ∀ dv, lookupStr tkvs "data" = some dv → isDictB dv = false) :
    normalize_heatmapgl (mkFig ts (PyVal.dict lkvs) cfg)
      = some (PyVal.dict
          [(PyVal.str "data", PyVal.list (ts.map fixTraceD)),
           (PyVal.str "layout",
            PyVal.dict (dictInsert lkvs (PyVal.str "template") (PyVal.dict tkvs))),
           (PyVal.str "config", cfg)]) := by
  have h := normalize_mkFig ts lkvs tkvs cfg hts (by rw [htmpl]; rfl)
  rw [h]
  cases hld : lookupStr tkvs "data" with
  | none => simp [hld]
  | some dv =>
    cases dv <;> simp [hld]
    case dict dkvs => exact absurd (hdata _ hld) (by simp [isDictB])

theorem normalize_rename (ts : List PyVal)
    (lkvs tkvs dkvs : List (PyVal × PyVal)) (cfg : PyVal)
    (hts : ∀ t ∈ ts, isDictB t = true)
    (htmpl : lookupStr lkvs "template" = some (PyVal.dict tkvs))
    (hld : lookupStr tkvs "data" = some (PyVal.dict dkvs))
    (hdist : dkvs.Pairwise (fun a b => keyEq a.1 b.1 = false))
    (hnh : ∀ kv ∈ dkvs, keyEq kv.1 (PyVal.str "heatmap") = false) :
    normalize_heatmapgl (mkFig ts (PyVal.dict lkvs) cfg)
      = some (PyVal.dict
          [(PyVal.str "data", PyVal.list (ts.map fixTraceD)),
           (PyVal.str "layout",
            PyVal.dict (dictInsert lkvs (PyVal.str "template")
              (PyVal.dict (dictInsert tkvs (PyVal.str "data")
                (PyVal.dict (dkvs.map (fun kv => (renKey kv.1, kv.2)))))))),
           (PyVal.str "config", cfg)]) := by
  have h := normalize_mkFig ts lkvs tkvs cfg hts (by rw [htmpl]; rfl)
  rw [h]
  simp [hld, renameHeatmapgl_map dkvs hdist hnh]

theorem normalize_template_not_dict (ts : List PyVal) (lkvs : List (PyVal × PyVal))
    (cfg tv : PyVal)
    (htmpl : lookupStr lkvs "template" = some tv)
    (htv : isDictB tv = false) :
    normalize_heatmapgl (mkFig ts (PyVal.dict lkvs) cfg) = Option.none := by
  cases hm : mapFixTraces ts with
  | none => simp [normalize_heatmapgl, mkFig, lookupStr, keyEq, hm]
  | some ts' =>
    cases tv <;> simp [isDictB] at htv <;>
      simp [normalize_heatmapgl, mkFig, lookupStr, keyEq, hm, htmpl]

theorem normalize_template_key (fig fig' : PyVal)
    (h : normalize_heatmapgl fig = some fig') :
    ∃ fkvs2 lkvs2 tv, fig' = PyVal.dict fkvs2 ∧
      lookupStr fkvs2 "layout" = some (PyVal.dict lkvs2) ∧
      lookupStr lkvs2 "template" = some tv := by
  cases fig <;> simp [normalize_heatmapgl] at h
  case dict fkvs =>
    cases hd : (lookupStr fkvs "data").getD (PyVal.list []) <;> rw [hd] at h <;>
      try simp at h
    case list traces =>
      cases hm : mapFixTraces traces <;> rw [hm] at h <;> try simp at h
      case some ts' =>
        cases hl : (lookupStr fkvs "layout").getD (PyVal.dict []) <;> rw [hl] at h <;>
          try simp at h
        case dict lkvs =>
          cases htv : (lookupStr lkvs "template").getD (PyVal.dict []) <;>
            rw [htv] at h <;> try simp at h
          case dict tkvs =>
            subst h
            exact ⟨_, _, _, rfl, lookupStr_dictInsert_self _ "layout" _,
              lookupStr_dictInsert_self _ "template" _⟩

/-- C4 (amended): `fixTraceD` rewrites a `heatmapgl` type tag to `heatmap`
leaving other keys untouched and is a no-op otherwise; a missing
`layout.template` defaults to `{}`; with a mapping template whose `data` is
absent or not a mapping the rename is skipped; with a mapping
`template.data` the keys are rebuilt with `heatmapgl` renamed to `heatmap`,
values carried over (faithful when keys are distinct and no `heatmap` key
collides); a template that is present but NOT a mapping makes the operation
raise instead of being a no-op; and whenever the operation completes, the
layout holds a template key. -/
theorem C4_amended :
    (∀ kvs : List (PyVal × PyVal),
       lookupStr kvs "type" = some (PyVal.str "heatmapgl") →
       fixTraceD (PyVal.dict kvs)
           = PyVal.dict (dictInsert kvs (PyVal.str "type") (PyVal.str "heatmap")) ∧
       lookupStr (dictInsert kvs (PyVal.str "type") (PyVal.str "heatmap")) "type"
           = some (PyVal.str "heatmap") ∧
       (∀ s : String, s ≠ "type" →
          lookupStr (dictInsert kvs (PyVal.str "type") (PyVal.str "heatmap")) s
            = lookupStr kvs s))
    ∧ (∀ kvs : List (PyVal × PyVal),
       (∀ sv, lookupStr kvs "type" = some sv → sv ≠ PyVal.str "heatmapgl") →
       fixTraceD (PyVal.dict kvs) = PyVal.dict kvs)
    ∧ (∀ (ts : List PyVal) (lkvs : List (PyVal × PyVal)) (cfg : PyVal),
       (∀ t ∈ ts, isDictB t = true) →
       lookupStr lkvs "template" = Option.none →
       normalize_heatmapgl (mkFig ts (PyVal.dict lkvs) cfg)
         = some (PyVal.dict
             [(PyVal.str "data", PyVal.list (ts.map fixTraceD)),
              (PyVal.str "layout",
               PyVal.dict (dictInsert lkvs (PyVal.str "template") (PyVal.dict []))),
              (PyVal.str "config", cfg)]))
    ∧ (∀ (ts : List PyVal) (lkvs tkvs : List (PyVal × PyVal)) (cfg : PyVal),
       (∀ t ∈ ts, isDictB t = true) →
       lookupStr lkvs "template" = some (PyVal.dict tkvs) →
       (∀ dv, lookupStr tkvs "data" = some dv → isDictB dv = false) →
       normalize_heatmapgl (mkFig ts (PyVal.dict lkvs) cfg)
         = some (PyVal.dict
             [(PyVal.str "data", PyVal.list (ts.map fixTraceD)),
              (PyVal.str "layout",
               PyVal.dict (dictInsert lkvs (PyVal.str "template") (PyVal.dict tkvs))),
              (PyVal.str "config", cfg)]))
    ∧ (∀ (ts : List PyVal) (lkvs tkvs dkvs : List (PyVal × PyVal)) (cfg : PyVal),
       (∀ t ∈ ts, isDictB t = true) →
       lookupStr lkvs "template" = some (PyVal.dict tkvs) →
       lookupStr tkvs "data" = some (PyVal.dict dkvs) →
       dkvs.Pairwise (fun a b => keyEq a.1 b.1 = false) →
       (∀ kv ∈ dkvs, keyEq kv.1 (PyVal.str "heatmap") = false) →
       normalize_heatmapgl (mkFig ts (PyVal.dict lkvs) cfg)
         = some (PyVal.dict
             [(PyVal.str "data", PyVal.list (ts.map fixTraceD)),
              (PyVal.str "layout",
               PyVal.dict (dictInsert lkvs (PyVal.str "template")
                 (PyVal.dict (dictInsert tkvs (PyVal.str "data")
                   (PyVal.dict (dkvs.map (fun kv => (renKey kv.1, kv.2)))))))),
              (PyVal.str "config", cfg)]))
    ∧ (∀ (ts : List PyVal) (lkvs : List (PyVal × PyVal)) (cfg tv : PyVal),
       lookupStr lkvs "template" = some tv → isDictB tv = false →
       normalize_heatmapgl (mkFig ts (PyVal.dict lkvs) cfg) = Option.none)
    ∧ (∀ fig fig' : PyVal, normalize_heatmapgl fig = some fig' →
       ∃ fkvs2 lkvs2 tv, fig' = PyVal.dict fkvs2 ∧
         lookupStr fkvs2 "layout" = some (PyVal.dict lkvs2) ∧
         lookupStr lkvs2 "template" = some tv) := by
  refine ⟨?_, ?_, normalize_template_absent, normalize_data_template_skip,
          normalize_rename, normalize_template_not_dict, normalize_template_key⟩
  · intro kvs h
    exact ⟨by simp [fixTraceD, h], lookupStr_dictInsert_self kvs "type" _,
           fun s hs => lookupStr_dictInsert_other kvs "type" s _ (Ne.symm hs)⟩
  · intro kvs h
    cases hl : lookupStr kvs "type" with
    | none => simp [fixTraceD, hl]
    | some sv =>
      cases sv <;> simp [fixTraceD, hl]
      case str s =>
        by_cases hs : s = "heatmapgl"
        · subst hs
          exact absurd rfl (h _ hl)
        · simp [hs]

theorem C4_witness :
    normalize_heatmapgl
      (mkFig [PyVal.dict [(PyVal.str "type", PyVal.str "heatmapgl")]]
        (PyVal.dict [(PyVal.str "template",
          PyVal.dict [(PyVal.str "data",
            PyVal.dict [(PyVal.str "heatmapgl", PyVal.int 7)])])])
        (PyVal.dict []))
      = some (PyVal.dict
          [(PyVal.str "data",
            PyVal.list ([PyVal.dict [(PyVal.str "type", PyVal.str "heatmapgl")]].map fixTraceD)),
           (PyVal.str "layout",
            PyVal.dict (dictInsert
              [(PyVal.str "template",
                PyVal.dict [(PyVal.str "data",
                  PyVal.dict [(PyVal.str "heatmapgl", PyVal.int 7)])])]
              (PyVal.str "template")
              (PyVal.dict (dictInsert
                [(PyVal.str "data", PyVal.dict [(PyVal.str "heatmapgl", PyVal.int 7)])]
                (PyVal.str "data")
                (PyVal.dict ([(PyVal.str "heatmapgl", PyVal.int 7)].map
                  (fun kv => (renKey kv.1, kv.2)))))))),
           (PyVal.str "config", PyVal.dict [])]) :=
  C4_amended.2.2.2.2.1
    [PyVal.dict [(PyVal.str "type", PyVal.str "heatmapgl")]]
    [(PyVal.str "template",
      PyVal.dict [(PyVal.str "data", PyVal.dict [(PyVal.str "heatmapgl", PyVal.int 7)])])]
    [(PyVal.str "data", PyVal.dict [(PyVal.str "heatmapgl", PyVal.int 7)])]
    [(PyVal.str "heatmapgl", PyVal.int 7)]
    (PyVal.dict [])
    (by decide) rfl rfl (by simp) (by decide)
